import Mathlib

/-!
Verification development for the mineru-api worker orchestrator
(`src/worker/tasks.py` together with `src/shared/storage.py`).

The Python data that flows between the splitter, the per-chunk parser and
the merger consists of JSON-like dictionaries.  We embed those values
shallowly as `PyVal`; a Python dict is an association list in insertion
order (Python 3.7+ dicts preserve insertion order, and the code relies on
it).  Python `list.sort` is a stable sort by key; we model it with
`List.insertionSort`, which is also stable, over the same key relation.
-/

namespace Mineru

/-- Shallow embedding of the JSON-like Python values exchanged between
the worker tasks (None, bool, int, str, list, dict in insertion order). -/
inductive PyVal where
  | vnone : PyVal
  | vbool : Bool → PyVal
  | vint : Int → PyVal
  | vstr : String → PyVal
  | vlist : List PyVal → PyVal
  | vdict : List (String × PyVal) → PyVal

/-- A Python dict: association list of string keys in insertion order. -/
abbrev Dict := List (String × PyVal)

/-- Python `d.get(k)` / `d[k]` lookup: first entry with the given key. -/
def dictFind (d : Dict) (k : String) : Option PyVal :=
  (d.find? (fun kv => kv.1 == k)).map (fun kv => kv.2)

/-- Python `d[k] = v`: replace the value in place if the key is present
(keeping its position), otherwise append the new key at the end. -/
def dictSet (d : Dict) (k : String) (v : PyVal) : Dict :=
  if d.any (fun kv => kv.1 == k) then
    d.map (fun kv => if kv.1 == k then (kv.1, v) else kv)
  else
    d ++ [(k, v)]

/-- Python `d.get(k, {})` when the value, if present, is itself a dict. -/
def dGetDict (d : Dict) (k : String) : Dict :=
  match dictFind d k with
  | some (.vdict d2) => d2
  | _ => []

/-- Python `d.get(k, default)` for an int-valued key. -/
def dGetInt (d : Dict) (k : String) (dflt : Int) : Int :=
  match dictFind d k with
  | some (.vint n) => n
  | _ => dflt

/-- Python `d.get(k, default)` for a str-valued key. -/
def dGetStr (d : Dict) (k : String) (dflt : String) : String :=
  match dictFind d k with
  | some (.vstr s) => s
  | _ => dflt

/-- Python `d.get(k, [])` for a list-valued key. -/
def dGetList (d : Dict) (k : String) : List PyVal :=
  match dictFind d k with
  | some (.vlist xs) => xs
  | _ => []

/-- Python truthiness of a value (`if x:`). -/
def pyTruthy : PyVal → Bool
  | .vnone => false
  | .vbool b => b
  | .vint n => n != 0
  | .vstr s => !s.isEmpty
  | .vlist xs => !xs.isEmpty
  | .vdict d => !d.isEmpty

/-! ### Chunk splitter (`split_pdf_file`, tasks.py lines 178-280)

`split_pdf_file` iterates `for i in range(0, total_pages, chunk_size)`,
forming for each `i` the closed 1-based range `[i+1, min(i+chunk_size,
total_pages)]`, extracting those pages into a sub-document persisted
under the storage key
`splits/<parent>/<parent>_chunk_<i+1>_<end>.pdf`, and recording
`start_page`, `end_page` and `page_count = end_page - i`. -/

/-- One entry of the list returned by `split_pdf_file` (the byte-level
extraction and upload side effects are external collaborators; the page
arithmetic and the storage key are embedded). -/
structure ChunkInfo where
  path : String
  start_page : Nat
  end_page : Nat
  page_count : Nat
deriving Repr, DecidableEq

/-- Storage key of a chunk, from tasks.py lines 226 and 249. -/
def chunkStorageKey (parent : String) (startIdx endPage : Nat) : String :=
  "splits/" ++ parent ++ "/" ++ parent ++ "_chunk_" ++ toString startIdx ++
    "_" ++ toString endPage ++ ".pdf"

/-- The loop `for i in range(0, total_pages, chunk_size)` of
`split_pdf_file`, starting at index `i`.  `range` with a step needs a
positive step (`chunk_size` comes from `MINERU_PAGE_CHUNK_SIZE`, default
50), hence the `0 < chunk_size` guard for termination. -/
def splitGo (total chunk_size : Nat) (parent : String) (i : Nat) : List ChunkInfo :=
  if _h : i < total ∧ 0 < chunk_size then
    let e := min (i + chunk_size) total
    { path := chunkStorageKey parent (i + 1) e
      start_page := i + 1
      end_page := e
      page_count := e - i } :: splitGo total chunk_size parent e
  else
    []
termination_by total - i
decreasing_by
  have h1 : i < min (i + chunk_size) total := lt_min (by omega) _h.1
  omega

/-- Embedding of `split_pdf_file` (tasks.py lines 178-280): partition the
pages `[1, total]` into consecutive ranges of `chunk_size` pages, the
last range truncated. -/
def split_pdf_file (total chunk_size : Nat) (parent : String) : List ChunkInfo :=
  splitGo total chunk_size parent 0

/-! ### Split decision (`parse_document_task`, tasks.py lines 461-494)

The task computes
`user_disable_pagination = options.get("enable_pagination") is False`,
reads `MINERU_ENABLE_PAGINATION` (the deployment switch) and, when
pagination is not explicitly disabled and is globally enabled and
`pypdfium2` is importable and the lower-cased file name ends with
`.pdf`, probes the page count with `get_pdf_page_count` (which returns
0 when the probe fails) and compares it strictly against
`MINERU_PAGINATION_THRESHOLD`. -/

/-- Embedding of `get_pdf_page_count` (tasks.py lines 153-175): returns
the probed page count, or 0 when `pypdfium2` is unavailable or the
probe raises.  A failed probe is `none`. -/
def get_pdf_page_count (pypdfium2_available : Bool) (probe : Option Nat) : Nat :=
  if !pypdfium2_available then 0 else probe.getD 0

/-- The caller option `enable_pagination`: absent (`none`) or an
explicit boolean.  `user_disable_pagination` is the Python test
`options.get("enable_pagination") is False`. -/
def user_disable_pagination (enable_pagination : Option Bool) : Bool :=
  enable_pagination == some false

/-- The `use_pagination` decision of `parse_document_task` (tasks.py
lines 461-479).  `threshold` is `MINERU_PAGINATION_THRESHOLD` (default
100); the comparison is strict (`total_pages > pagination_threshold`). -/
def use_pagination (enable_pagination : Option Bool) (env_pagination_enabled : Bool)
    (pypdfium2_available : Bool) (file_name : String) (probe : Option Nat)
    (threshold : Nat) : Bool :=
  if !user_disable_pagination enable_pagination && env_pagination_enabled then
    if pypdfium2_available && file_name.toLower.endsWith ".pdf" then
      decide (get_pdf_page_count pypdfium2_available probe > threshold)
    else false
  else false

/-- Number of chunk parse tasks dispatched by `parse_document_task`:
the split path dispatches one per chunk from `split_pdf_file`, the
direct path dispatches none (tasks.py lines 481-514, 624-651). -/
def chunk_tasks_dispatched (enable_pagination : Option Bool) (env_pagination_enabled : Bool)
    (pypdfium2_available : Bool) (file_name : String) (probe : Option Nat)
    (threshold chunk_size : Nat) (parent : String) : Nat :=
  if use_pagination enable_pagination env_pagination_enabled pypdfium2_available
      file_name probe threshold then
    (split_pdf_file (get_pdf_page_count pypdfium2_available probe) chunk_size parent).length
  else 0

/-! ### Merger (`_merge_chunk_results_from_results`, tasks.py lines 700-868)

The merger sorts the successful chunk-result dicts ascending by
`start_page` (Python `list.sort` is stable; we model it with the stable
`List.insertionSort` over the same key), concatenates their markdown
with no separator, concatenates image lists and then sorts them by
filename, and merges structured content lists, shifting the
page-referencing fields of each record by `start_page - 1` of its
chunk.  The storage uploads of `result.md` and the content-list JSON
are external side effects and are not part of the returned dict. -/

/-- Page-referencing field names shifted in the flat list shape
(tasks.py lines 750-759). -/
def pageFieldsFlat : List String := ["page_idx", "page_number", "page", "page_index", "page_num"]

/-- Page-referencing field names shifted in the `pages` and `items`
wrapper shapes (tasks.py lines 768-773 and 781-786). -/
def pageFieldsWrapped : List String := ["page_idx", "page_number", "page"]

/-- Python `merged_item[k] += page_offset`: the page fields emitted by
the engine are integers, so the increment acts on `vint`. -/
def addPageOffset (off : Int) : PyVal → PyVal
  | .vint n => .vint (n + off)
  | v => v

/-- Increment field `k` by `off` when present (the Python code guards
with `if k in merged_item:`; mapping over the entries is equivalent). -/
def shiftPageField (off : Int) (k : String) (d : Dict) : Dict :=
  d.map (fun kv => if kv.1 == k then (kv.1, addPageOffset off kv.2) else kv)

/-- The five field updates of the flat shape (tasks.py lines 750-759),
in source order. -/
def shiftFlatFields (off : Int) (f : Dict) : Dict :=
  shiftPageField off "page_num" (shiftPageField off "page_index"
    (shiftPageField off "page" (shiftPageField off "page_number"
      (shiftPageField off "page_idx" f))))

/-- The three field updates of the `pages` and `items` wrapper shapes
(tasks.py lines 768-773 and 781-786), in source order. -/
def shiftWrappedFields (off : Int) (f : Dict) : Dict :=
  shiftPageField off "page" (shiftPageField off "page_number"
    (shiftPageField off "page_idx" f))

/-- Shift applied to one record of a flat content list (tasks.py lines
747-761): the five fields of `pageFieldsFlat`; non-dict records pass
through unchanged. -/
def shiftItemFlat (off : Int) (item : PyVal) : PyVal :=
  match item with
  | .vdict f => .vdict (shiftFlatFields off f)
  | v => v

/-- Shift applied to one record of a `pages` or `items` wrapper
(tasks.py lines 765-776 and 778-789): only the three fields of
`pageFieldsWrapped`. -/
def shiftItemWrapped (off : Int) (item : PyVal) : PyVal :=
  match item with
  | .vdict f => .vdict (shiftWrappedFields off f)
  | v => v

/-- The records one chunk contributes to `merged_content_list`
(tasks.py lines 729, 744-793): nothing when its `content_list` is
absent or falsy; otherwise its records shifted by
`page_offset = start_page - 1` according to the shape of that chunk's
own collection. -/
def chunkContentContribution (r : Dict) : List PyVal :=
  let cl := (dictFind r "content_list").getD .vnone
  if pyTruthy cl then
    let off := dGetInt r "start_page" 1 - 1
    match cl with
    | .vlist items => items.map (shiftItemFlat off)
    | .vdict d =>
      if (dictFind d "pages").isSome then (dGetList d "pages").map (shiftItemWrapped off)
      else if (dictFind d "items").isSome then (dGetList d "items").map (shiftItemWrapped off)
      else []
    | _ => []
  else []

/-- Shape of the merged content list, detected once from the first
chunk that has a truthy `content_list` (tasks.py lines 731-742). -/
inductive CLFormat where
  | pages : CLFormat
  | items : CLFormat
  | flat : CLFormat
deriving DecidableEq, Repr

/-- The shape-detection of tasks.py lines 731-742 applied to one
collection. -/
def detectFormat (cl : PyVal) : CLFormat :=
  match cl with
  | .vdict d =>
    if (dictFind d "pages").isSome then .pages
    else if (dictFind d "items").isSome then .items
    else .flat
  | _ => .flat

/-- The wrapper-level metadata kept from the first chunk with content
(tasks.py lines 735 and 738): all entries except the collection key. -/
def detectMeta (cl : PyVal) : Dict :=
  match cl with
  | .vdict d =>
    if (dictFind d "pages").isSome then d.filter (fun kv => kv.1 != "pages")
    else if (dictFind d "items").isSome then d.filter (fun kv => kv.1 != "items")
    else []
  | _ => []

/-- First chunk result in merge order whose `content_list` is truthy. -/
def firstTruthyContentList : List Dict → Option PyVal
  | [] => none
  | r :: rest =>
    let cl := (dictFind r "content_list").getD .vnone
    if pyTruthy cl then some cl else firstTruthyContentList rest

/-- Python `chunk_data.get("content") or ""` over
`chunk_result.get("data", {})` (tasks.py lines 716-717). -/
def chunkMd (r : Dict) : String :=
  match dictFind (dGetDict r "data") "content" with
  | some (.vstr s) => s
  | _ => ""

/-- Python `chunk_data.get("images", [])` (tasks.py line 725). -/
def chunkImages (r : Dict) : List PyVal :=
  dGetList (dGetDict r "data") "images"

/-- The sort key of the merge: `x.get("start_page", 1)` (tasks.py line
706). -/
def startPageKey (r : Dict) : Int := dGetInt r "start_page" 1

/-- The comparison used to sort chunk results before merging. -/
def chunkLE (a b : Dict) : Prop := startPageKey a ≤ startPageKey b

instance : DecidableRel chunkLE :=
  fun a b => inferInstanceAs (Decidable (startPageKey a ≤ startPageKey b))

instance : IsTotal Dict chunkLE := ⟨fun a b => Int.le_total (startPageKey a) (startPageKey b)⟩

instance : IsTrans Dict chunkLE := ⟨fun _ _ _ => Int.le_trans⟩

/-- Python `img.get("filename", "") if isinstance(img, dict) else ""`
(tasks.py line 821). -/
def imgFilename (img : PyVal) : String :=
  match img with
  | .vdict d => dGetStr d "filename" ""
  | _ => ""

/-- The comparison used for the stable image sort by filename. -/
def imageLE (a b : PyVal) : Prop := imgFilename a ≤ imgFilename b

instance : DecidableRel imageLE :=
  fun a b => inferInstanceAs (Decidable (imgFilename a ≤ imgFilename b))

instance : IsTotal PyVal imageLE := ⟨fun a b => le_total (imgFilename a) (imgFilename b)⟩

instance : IsTrans PyVal imageLE := ⟨fun _ _ _ => le_trans⟩

/-- Substring search over character lists, used for the Python
membership test `"data:image" in merged_md` (tasks.py line 796). -/
def hasSubList (pat : List Char) : List Char → Bool
  | [] => pat.isEmpty
  | c :: rest => pat.isPrefixOf (c :: rest) || hasSubList pat rest

/-- Python `needle in hay` on strings. -/
def strContains (hay needle : String) : Bool :=
  hasSubList needle.toList hay.toList

/-- Python `Path(name).stem`: the file name with its last suffix
removed (a lone leading dot is kept). -/
def pathStem (s : String) : String :=
  let parts := s.splitOn "."
  if parts.length ≤ 1 then s
  else if (parts.headD "").isEmpty && parts.length == 2 then s
  else String.intercalate "." parts.dropLast

/-- Storage key of the merged content-list JSON (tasks.py lines 813 and
856). -/
def contentListJsonKey (task_id file_name : String) : String :=
  task_id ++ "/" ++ pathStem file_name ++ "/auto/" ++ pathStem file_name ++
    "_content_list.json"

/-- Embedding of `_merge_chunk_results_from_results` (tasks.py lines
700-868).  `completed_at` abstracts `datetime.now().isoformat()`. -/
def mergeChunkResultsFromResults (chunk_results : List Dict)
    (file_name backend task_id completed_at : String) : Dict :=
  let sorted := List.insertionSort chunkLE chunk_results
  let merged_md := String.join (sorted.map chunkMd)
  let merged_images := sorted.flatMap chunkImages
  let merged_content_list := sorted.flatMap chunkContentContribution
  let total_images := merged_images.length
  let has_base64_images := strContains merged_md "data:image"
  let parse_method := match sorted with
    | [] => PyVal.vstr "MinerU"
    | r :: _ => (dictFind r "parse_method").getD (.vstr "MinerU")
  let images_uploaded := match sorted with
    | [] => PyVal.vbool false
    | r :: _ => (dictFind (dGetDict r "data") "images_uploaded").getD (.vbool false)
  let sorted_images :=
    if merged_images.isEmpty then merged_images
    else List.insertionSort imageLE merged_images
  let final_content_list : Option PyVal :=
    if merged_content_list.isEmpty then none
    else match firstTruthyContentList sorted with
      | some cl =>
        match detectFormat cl with
        | .pages => some (.vdict (detectMeta cl ++ [("pages", .vlist merged_content_list)]))
        | .items => some (.vdict (detectMeta cl ++ [("items", .vlist merged_content_list)]))
        | .flat => some (.vlist merged_content_list)
      | none => some (.vlist merged_content_list)
  let result : Dict := [("status", PyVal.vstr "completed"), ("file_name", .vstr file_name),
    ("backend", .vstr backend), ("parse_method", parse_method),
    ("completed_at", .vstr completed_at),
    ("data", .vdict [("content", .vstr merged_md), ("images_uploaded", images_uploaded),
      ("images_as_base64", .vbool has_base64_images),
      ("has_images", .vbool (decide (total_images > 0))),
      ("images", .vlist sorted_images)])]
  result ++ (match final_content_list with
    | some cl =>
      [("json_files", .vdict [("content_list_json",
        .vstr (contentListJsonKey task_id file_name))]), ("content_list", cl)]
    | none => [])

/-! ### Synchronous split path (`_handle_split_and_parse`, local branch,
tasks.py lines 552-622)

When the storage backend is local, the dispatcher parses each chunk
in-process with `_execute_parse_document`, accumulating successes in
`chunk_results` (tagged with the chunk page range, lines 598-599) and
failures in `failed_chunks`.  `execParse` abstracts the per-chunk call
to `_execute_parse_document`, whose outcome depends on the external
engine. -/

/-- Python `chunk_result.get("status") == "failed"`. -/
def statusFailed (r : Dict) : Bool :=
  match dictFind r "status" with
  | some (.vstr s) => s == "failed"
  | _ => false

/-- The `failed_chunks` entry of the synchronous loop (tasks.py lines
590-595). -/
def syncFailedEntry (c : ChunkInfo) (r : Dict) : Dict :=
  [("file_name", (dictFind r "file_name").getD .vnone),
   ("start_page", .vint c.start_page),
   ("end_page", .vint c.end_page),
   ("error", .vstr (dGetStr r "error_message" "Unknown error"))]

/-- A successful chunk result tagged with its page range (tasks.py
lines 598-599). -/
def taggedChunkResult (c : ChunkInfo) (r : Dict) : Dict :=
  dictSet (dictSet r "start_page" (.vint c.start_page)) "end_page" (.vint c.end_page)

/-- The chunk loop of the synchronous split path (tasks.py lines
567-600), accumulating `(chunk_results, failed_chunks)` in order. -/
def syncSplitCollect (execParse : ChunkInfo → Dict) : List ChunkInfo → List Dict × List Dict
  | [] => ([], [])
  | c :: rest =>
    let r := execParse c
    let acc := syncSplitCollect execParse rest
    if statusFailed r then (acc.1, syncFailedEntry c r :: acc.2)
    else (taggedChunkResult c r :: acc.1, acc.2)

/-- The Python f-string
`All N chunks failed. First error: E` (tasks.py lines 613 and 1615). -/
def allChunksFailedMsg (n : Nat) (first_error : String) : String :=
  "All " ++ toString n ++ " chunks failed. First error: " ++ first_error

/-- The dict returned by the synchronous split path (tasks.py lines
564-622): the all-failed dict, or the merged result.  The deletion of
the uploaded source blob (line 603) is a storage side effect treated in
the storage model below. -/
def handleSplitAndParseSyncResult (chunks : List ChunkInfo) (execParse : ChunkInfo → Dict)
    (file_name backend parent_task_id completed_at : String) : Dict :=
  let acc := syncSplitCollect execParse chunks
  if acc.1.isEmpty then
    let first_error := match acc.2 with
      | [] => "Unknown"
      | f :: _ => dGetStr f "error" "Unknown"
    [("status", PyVal.vstr "failed"), ("file_name", .vstr file_name),
     ("backend", .vstr backend),
     ("error_message", .vstr (allChunksFailedMsg chunks.length first_error)),
     ("completed_at", .vstr completed_at)]
  else
    mergeChunkResultsFromResults acc.1 file_name backend parent_task_id completed_at

/-- Coarse task states observable through the status API during the
synchronous split path. -/
inductive ObservedStatus where
  | queued : ObservedStatus
  | started : ObservedStatus
  | splitting_and_parsing : ObservedStatus
  | merging : ObservedStatus
  | succeeded : ObservedStatus
  | failed : ObservedStatus
deriving DecidableEq, Repr

/-- States observed, in order, for a document task on the synchronous
split path: `queued` is the Celery PENDING state on submission;
`started` is set by `track_started=True` when the worker picks the task
up (tasks.py line 414); `splitting_and_parsing` is the only explicit
`update_state` of the local branch (tasks.py lines 552-562); the
terminal state mirrors the status of the returned dict.  No other
`update_state` call occurs on this path. -/
def syncSplitObservedStates (chunks : List ChunkInfo) (execParse : ChunkInfo → Dict)
    (file_name backend parent_task_id completed_at : String) : List ObservedStatus :=
  let result := handleSplitAndParseSyncResult chunks execParse file_name backend
    parent_task_id completed_at
  [ObservedStatus.queued, ObservedStatus.started, ObservedStatus.splitting_and_parsing] ++
    [if statusFailed result then ObservedStatus.failed else ObservedStatus.succeeded]

/-! ### Distributed fan-in (`merge_chunk_results_task`, tasks.py lines
1478-1633)

For each chunk task id, the fan-in task polls the Celery result until
it is ready or a fixed 3600-second budget elapses (lines 1527-1530).
The four observable outcomes of one chunk task are embedded as
`ChunkTaskOutcome`; for a successful Celery task, `result.info` is an
alias of `result.result`, so the metadata lookup of lines 1560-1571
runs against the returned dict itself. -/

/-- Observable outcome of awaiting one chunk task. -/
inductive ChunkTaskOutcome where
  | timedOut : ChunkTaskOutcome
  | completed : Dict → ChunkTaskOutcome
  | errored : String → ChunkTaskOutcome
  | otherState : String → ChunkTaskOutcome

/-- An entry of the `failed_chunks` accumulator (tasks.py lines
1533-1536, 1545-1548, 1595-1598, 1602-1605). -/
structure FailedChunk where
  task_id : String
  error : String
deriving Repr, DecidableEq

/-- The timeout error recorded for a chunk that does not reach a
terminal state within the per-chunk budget (tasks.py lines 1527-1536,
`timeout = 3600`). -/
def chunkTimeoutMsg : String := "Task timeout after 3600 seconds"

/-- Page-range recovery of the fan-in loop (tasks.py lines 1556-1576):
try `task_info["kwargs"]["options"]["chunk_info"]`, updating the chunk
result when found; otherwise fall back to `chunk_result.get(
"start_page", 1)` and `chunk_result.get("end_page", 1)`.  Returns the
recovered range and the possibly-updated chunk result. -/
def recoverPageRange (task_info chunk_result : Dict) : Int × Int × Dict :=
  let chunk_info := dGetDict (dGetDict (dGetDict task_info "kwargs") "options") "chunk_info"
  if chunk_info.isEmpty then
    (dGetInt chunk_result "start_page" 1, dGetInt chunk_result "end_page" 1, chunk_result)
  else
    let s := dGetInt chunk_info "start_page" 1
    let e := dGetInt chunk_info "end_page" 1
    let cr := dictSet (dictSet chunk_result "start_page" (.vint s)) "end_page" (.vint e)
    if s == -1 || e == -1 then
      (dGetInt cr "start_page" 1, dGetInt cr "end_page" 1, cr)
    else (s, e, cr)

/-- The await loop of `merge_chunk_results_task` (tasks.py lines
1522-1612), accumulating `(chunk_results, failed_chunks)` in order. -/
def fanInCollect : List (String × ChunkTaskOutcome) → List Dict × List FailedChunk
  | [] => ([], [])
  | (id, o) :: rest =>
    let acc := fanInCollect rest
    match o with
    | .timedOut => (acc.1, { task_id := id, error := chunkTimeoutMsg } :: acc.2)
    | .completed r =>
      if statusFailed r then
        (acc.1, { task_id := id, error := dGetStr r "error_message" "Unknown error" } :: acc.2)
      else
        let cr := (recoverPageRange r r).2.2
        (cr :: acc.1, acc.2)
    | .errored msg =>
      let e := if msg.isEmpty then "Unknown error" else msg
      (acc.1, { task_id := id, error := e } :: acc.2)
    | .otherState s =>
      (acc.1, { task_id := id, error := "Task in state: " ++ s } :: acc.2)

/-- The dict returned by `merge_chunk_results_task` (tasks.py lines
1614-1633): when every chunk failed, the raised aggregate exception is
caught and turned into a failed dict whose `error_message` is the
exception text; otherwise the merge runs on the collected successes.
The `traceback` string of the failure dict is environment-dependent and
abstracted as empty. -/
def mergeChunkResultsTaskRun (outcomes : List (String × ChunkTaskOutcome))
    (file_name backend task_id completed_at : String) : Dict :=
  let acc := fanInCollect outcomes
  if acc.1.isEmpty then
    let first_error := match acc.2 with
      | [] => "Unknown"
      | f :: _ => f.error
    [("status", PyVal.vstr "failed"), ("file_name", .vstr file_name),
     ("backend", .vstr backend),
     ("error_message", .vstr (allChunksFailedMsg outcomes.length first_error)),
     ("traceback", .vstr ""), ("completed_at", .vstr completed_at)]
  else
    mergeChunkResultsFromResults acc.1 file_name backend task_id completed_at

/-! ### Chunk task payload and parse result (`_handle_split_and_parse`
distributed branch, tasks.py lines 624-651, and
`_execute_parse_document`, tasks.py lines 872-1091) -/

/-- The chunk options placed in a dispatched chunk task payload
(tasks.py lines 572-577 and 631-636): a copy of the caller options with
`chunk_info` holding the page range. -/
def chunkOptionsWithInfo (options : Dict) (c : ChunkInfo) : Dict :=
  dictSet options "chunk_info" (.vdict [("start_page", .vint c.start_page),
    ("end_page", .vint c.end_page), ("page_count", .vint c.page_count)])

/-- The success dict returned by `_execute_parse_document` (tasks.py
lines 1048-1069): status, file name, backend, parse method, timestamp
and a `data` dict, plus optional `json_files` and `content_list`.  It
carries no `start_page`, `end_page` or `kwargs` key even when the task
payload contained `chunk_info`. -/
def executeParseSuccessResult (file_name backend parse_method completed_at content : String)
    (images_uploaded images_as_base64 : Bool) (images : List PyVal)
    (json_files : Option Dict) (content_list : Option PyVal) : Dict :=
  let base : Dict := [("status", PyVal.vstr "completed"), ("file_name", .vstr file_name),
    ("backend", .vstr backend), ("parse_method", .vstr parse_method),
    ("completed_at", .vstr completed_at),
    ("data", .vdict [("content", .vstr content), ("images_uploaded", .vbool images_uploaded),
      ("images_as_base64", .vbool images_as_base64),
      ("has_images", .vbool (!images.isEmpty)),
      ("images", .vlist images)])]
  let base2 := match json_files with
    | some jf => base ++ [("json_files", PyVal.vdict jf)]
    | none => base
  match content_list with
  | some cl => base2 ++ [("content_list", cl)]
  | none => base2

/-! ### Storage frame effect of `_execute_parse_document` (tasks.py
lines 897-1091 with `src/shared/storage.py`)

The storage is modelled as the sets of temp-input keys, output keys and
worker-local copies.  For the local backend, `download_to_local` is the
identity, the unlink guard `str(local_input_path) != file_path` skips
the local copy, and `storage.delete_file` (which never raises; it
returns False on failure) removes the input in the `finally` block
before the result is returned.  For the S3 backend, `download_to_local`
materialises a fresh local temp copy which the same `finally` block
removes.  `engine_ok` abstracts whether the external parse engine
produced markdown; `output_keys` abstracts the output files uploaded on
success. -/

structure StorageState where
  tempFiles : List String
  outputFiles : List String
  localFiles : List String
deriving Repr, DecidableEq

/-- Storage-visible behaviour of one `_execute_parse_document` run:
final state paired with whether the returned status is `completed`. -/
def executeParseDocumentStorage (storage_local : Bool) (st : StorageState)
    (file_path : String) (engine_ok : Bool) (output_keys : List String) :
    StorageState × Bool :=
  if storage_local then
    if file_path ∈ st.tempFiles then
      if engine_ok then
        -- success: outputs uploaded, then the finally block deletes the
        -- input (the local path equals the storage path, so the local
        -- unlink guard is skipped and delete_file removes it)
        ({ st with tempFiles := st.tempFiles.filter (fun p => p != file_path),
                   outputFiles := st.outputFiles ++ output_keys }, true)
      else
        -- engine failure: the finally block still deletes the input;
        -- the except branch then finds it already gone
        ({ st with tempFiles := st.tempFiles.filter (fun p => p != file_path) }, false)
    else
      -- input missing: read_fn raises, the finally block unlink guard
      -- skips and delete_file fails silently, result is failed
      (st, false)
  else
    if file_path ∈ st.tempFiles then
      if engine_ok then
        -- success: a fresh local copy is created by download_to_local
        -- and removed again in the finally block, the outputs are
        -- uploaded, and delete_file removes the temp input
        ({ st with tempFiles := st.tempFiles.filter (fun p => p != file_path),
                   outputFiles := st.outputFiles ++ output_keys }, true)
      else
        ({ st with tempFiles := st.tempFiles.filter (fun p => p != file_path) }, false)
    else
      -- reading the remote input during download raises before any
      -- local copy exists; the outer except finds nothing to clean
      (st, false)

/-! ### Result projections used in theorem statements -/

/-- The `status` string of a task result dict. -/
def resultStatus (r : Dict) : String := dGetStr r "status" ""

/-- The markdown content of a task result dict (`result["data"]["content"]`). -/
def resultContent (r : Dict) : String := chunkMd r

/-- The image list of a task result dict (`result["data"]["images"]`). -/
def resultImages (r : Dict) : List PyVal := chunkImages r

/-- The structured content of a task result dict. -/
def resultContentList (r : Dict) : Option PyVal := dictFind r "content_list"

/-- The parse-method entry of a task result dict. -/
def resultParseMethod (r : Dict) : Option PyVal := dictFind r "parse_method"

/-- The error message of a failed task result dict. -/
def resultErrorMsg (r : Dict) : String := dGetStr r "error_message" ""

/-! ### Sorting the tagged sync results by chunk page -/

/-- Comparison of `ChunkInfo` by starting page. -/
def chunkInfoLE (a b : ChunkInfo) : Prop := a.start_page ≤ b.start_page

instance : DecidableRel chunkInfoLE :=
  fun a b => inferInstanceAs (Decidable (a.start_page ≤ b.start_page))

instance : IsTotal ChunkInfo chunkInfoLE :=
  ⟨fun a b => Nat.le_total a.start_page b.start_page⟩

instance : IsTrans ChunkInfo chunkInfoLE := ⟨fun _ _ _ => Nat.le_trans⟩

/-- Parse stub used by the C4 witness: the chunk starting at page 101
fails, the others succeed with one-letter markdown. -/
def syncWitnessParse (c : ChunkInfo) : Dict :=
  if c.start_page == 101 then
    [("status", PyVal.vstr "failed"), ("error_message", .vstr "ParseError: engine crash")]
  else
    [("status", PyVal.vstr "completed"),
     ("data", .vdict [("content", .vstr (if c.start_page == 1 then "A" else "C")),
       ("images", .vlist [])])]

/-! ### All-chunks-failed lemmas (C5, C9) -/

/-- Whether one chunk task outcome counts as failed for the fan-in
loop: everything except a Celery success whose payload is not itself a
failure dict. -/
def outcomeFails : ChunkTaskOutcome → Bool
  | .completed r => statusFailed r
  | _ => true

/-- The error text the fan-in loop records for a failed outcome. -/
def outcomeErrorText : ChunkTaskOutcome → String
  | .timedOut => chunkTimeoutMsg
  | .completed r => dGetStr r "error_message" "Unknown error"
  | .errored m => if m.isEmpty then "Unknown error" else m
  | .otherState s => "Task in state: " ++ s

/-- Parse stub used by the C5 witness: every chunk fails. -/
def allFailParse (_c : ChunkInfo) : Dict :=
  [("status", PyVal.vstr "failed"), ("error_message", .vstr "ExtractionError: bad range")]

/-- A minimal successful chunk-task payload used by witnesses. -/
def okChunkResult : Dict :=
  [("status", PyVal.vstr "completed"),
   ("data", .vdict [("content", .vstr "A"), ("images", .vlist [])])]

/-- Second chunk fixture for the C7 witness (pages 51-100). -/
def c7ChunkHigh : Dict :=
  [("status", PyVal.vstr "completed"), ("parse_method", .vstr "MinerU"),
   ("start_page", .vint 51), ("end_page", .vint 100),
   ("data", .vdict [("content", .vstr "B"), ("images", .vlist [])]),
   ("content_list", .vlist [.vdict [("page_idx", .vint 3)]])]

/-- First chunk fixture for the C7 witness (pages 1-50). -/
def c7ChunkLow : Dict :=
  [("status", PyVal.vstr "completed"), ("parse_method", .vstr "MinerU"),
   ("start_page", .vint 1), ("end_page", .vint 50),
   ("data", .vdict [("content", .vstr "A"), ("images", .vlist [])]),
   ("content_list", .vlist [.vdict [("page_idx", .vint 0)]])]

/-! ### Page-offset correction of structured content (C3) -/

/-- A single successful chunk whose structured content is a flat list
holding one record `f`. -/
def flatChunk (s : Int) (f : Dict) : Dict :=
  [("status", PyVal.vstr "completed"), ("parse_method", .vstr "MinerU"),
   ("start_page", .vint s), ("end_page", .vint s),
   ("data", .vdict [("content", .vstr ""), ("images", .vlist [])]),
   ("content_list", .vlist [.vdict f])]

/-- A single successful chunk whose structured content is a `pages`
wrapper holding one record `f`. -/
def pagesChunk (s : Int) (f : Dict) : Dict :=
  [("status", PyVal.vstr "completed"), ("parse_method", .vstr "MinerU"),
   ("start_page", .vint s), ("end_page", .vint s),
   ("data", .vdict [("content", .vstr ""), ("images", .vlist [])]),
   ("content_list", .vdict [("pages", .vlist [.vdict f])])]

/-- A single successful chunk whose structured content is an `items`
wrapper holding one record `f`. -/
def itemsChunk (s : Int) (f : Dict) : Dict :=
  [("status", PyVal.vstr "completed"), ("parse_method", .vstr "MinerU"),
   ("start_page", .vint s), ("end_page", .vint s),
   ("data", .vdict [("content", .vstr ""), ("images", .vlist [])]),
   ("content_list", .vdict [("items", .vlist [.vdict f])])]

/-- Field of the first record of a `pages`-shaped merged content list,
as an integer. -/
def mergedPagesRecordField (m : Dict) (k : String) : Option Int :=
  match dictFind m "content_list" with
  | some (.vdict d) =>
    match dictFind d "pages" with
    | some (.vlist (.vdict f :: _)) =>
      (match dictFind f k with
       | some (.vint n) => some n
       | _ => none)
    | _ => none
  | _ => none

lemma splitGo_of_lt {total cs i : Nat} (parent : String) (h1 : i < total) (h2 : 0 < cs) :
    splitGo total cs parent i =
      { path := chunkStorageKey parent (i + 1) (min (i + cs) total)
        start_page := i + 1
        end_page := min (i + cs) total
        page_count := min (i + cs) total - i } :: splitGo total cs parent (min (i + cs) total) := by
  rw [splitGo, dif_pos ⟨h1, h2⟩]

lemma splitGo_stop {total cs i : Nat} (parent : String) (h : ¬(i < total ∧ 0 < cs)) :
    splitGo total cs parent i = [] := by
  rw [splitGo, dif_neg h]

/-- The bundle of invariants of the splitting loop, proved for every
suffix of the iteration starting at index `i`. -/
lemma splitGo_spec (n : Nat) : ∀ total cs i, total - i ≤ n → 0 < cs → i < total →
    ∀ parent, (splitGo total cs parent i ≠ [] ∧
      (splitGo total cs parent i).head?.map (fun c => c.start_page) = some (i + 1)) ∧
      ((splitGo total cs parent i).getLast?.map (fun c => c.end_page) = some total ∧
      (∀ c ∈ splitGo total cs parent i,
        i < c.start_page ∧ c.start_page ≤ c.end_page ∧ c.end_page ≤ total ∧
          c.page_count = c.end_page - c.start_page + 1)) ∧
      (List.Chain' (fun a b => b.start_page = a.end_page + 1) (splitGo total cs parent i) ∧
      List.Pairwise (fun a b => a.end_page < b.start_page) (splitGo total cs parent i) ∧
      ((splitGo total cs parent i).map (fun c => c.page_count)).sum = total - i) ∧
      ((∀ c ∈ (splitGo total cs parent i).dropLast, c.page_count = cs) ∧
      (∀ c ∈ (splitGo total cs parent i).getLast?, c.page_count ≤ cs)) := by
  induction n with
  | zero => intro total cs i hn _ hi; omega
  | succ n ih =>
    intro total cs i hn hcs hi parent
    have he1 : i < min (i + cs) total := lt_min (by omega) hi
    have he2 : min (i + cs) total ≤ total := min_le_right _ _
    rw [splitGo_of_lt parent hi hcs]
    by_cases hlt : min (i + cs) total < total
    · have hecs : min (i + cs) total = i + cs := by omega
      obtain ⟨⟨hne, hhead⟩, ⟨hlast, hmem⟩, ⟨hchain, hpair, hsum⟩, hfull, htrunc⟩ :=
        ih total cs (min (i + cs) total) (by omega) hcs hlt parent
      obtain ⟨x, xs, hx⟩ := List.exists_cons_of_ne_nil hne
      rw [hx] at hhead hlast hchain hpair hsum hfull htrunc hmem
      simp only [List.head?_cons, Option.map_some', Option.some_inj] at hhead
      rw [hx]
      refine ⟨⟨by simp, by simp⟩, ⟨?_, ?_⟩, ⟨?_, ?_, ?_⟩, ?_, ?_⟩
      · rw [List.getLast?_cons_cons]; exact hlast
      · intro c hc
        rcases List.mem_cons.mp hc with rfl | hc
        · refine ⟨?_, ?_, ?_, ?_⟩ <;> simp <;> omega
        · have := hmem c hc; omega
      · exact List.chain'_cons.mpr ⟨hhead, hchain⟩
      · refine List.Pairwise.cons ?_ hpair
        intro b hb
        have := hmem b hb
        show min (i + cs) total < b.start_page
        omega
      · simp only [List.map_cons, List.sum_cons]
        show min (i + cs) total - i +
          ((fun c => c.page_count) x + (List.map (fun c => c.page_count) xs).sum) = total - i
        rw [← List.sum_cons, ← List.map_cons, hsum]
        omega
      · intro c hc
        rw [List.dropLast_cons₂] at hc
        rcases List.mem_cons.mp hc with rfl | hc
        · show min (i + cs) total - i = cs; omega
        · exact hfull c hc
      · intro c hc
        rw [List.getLast?_cons_cons] at hc
        exact htrunc c hc
    · have hetot : min (i + cs) total = total := by omega
      rw [hetot, splitGo_stop parent (by omega)]
      refine ⟨⟨by simp, by simp⟩, ⟨by simp, ?_⟩, ⟨by simp, by simp, by simp⟩, by simp, ?_⟩
      · intro c hc
        rcases List.mem_singleton.mp hc with rfl
        refine ⟨?_, ?_, ?_, ?_⟩ <;> simp <;> omega
      · intro c hc
        simp only [List.getLast?_singleton, Option.mem_def, Option.some_inj] at hc
        subst hc
        show total - i ≤ cs; omega

/-- C1.  For every `totalPages >= 1` and `chunkSizePages >= 1`,
`split_pdf_file` produces a non-empty ordered list of chunk ranges that
are contiguous, non-overlapping, start at page 1, end at `totalPages`,
with each `page_count` equal to `end_page - start_page + 1`, the sum of
all `page_count` equal to `totalPages`, every range except the last of
length `chunkSizePages`, and the last range truncated (at most
`chunkSizePages` pages). -/
theorem split_pdf_file_ranges (total cs : Nat) (parent : String)
    (htotal : 1 ≤ total) (hcs : 1 ≤ cs) :
    split_pdf_file total cs parent ≠ [] ∧
    (split_pdf_file total cs parent).head?.map (fun c => c.start_page) = some 1 ∧
    (split_pdf_file total cs parent).getLast?.map (fun c => c.end_page) = some total ∧
    List.Chain' (fun a b => b.start_page = a.end_page + 1) (split_pdf_file total cs parent) ∧
    List.Pairwise (fun a b => a.end_page < b.start_page) (split_pdf_file total cs parent) ∧
    (∀ c ∈ split_pdf_file total cs parent,
      1 ≤ c.start_page ∧ c.start_page ≤ c.end_page ∧ c.end_page ≤ total ∧
        c.page_count = c.end_page - c.start_page + 1) ∧
    ((split_pdf_file total cs parent).map (fun c => c.page_count)).sum = total ∧
    (∀ c ∈ (split_pdf_file total cs parent).dropLast, c.page_count = cs) ∧
    (∀ c ∈ (split_pdf_file total cs parent).getLast?, c.page_count ≤ cs) := by
  obtain ⟨⟨hne, hhead⟩, ⟨hlast, hmem⟩, ⟨hchain, hpair, hsum⟩, hfull, htrunc⟩ :=
    splitGo_spec total total cs 0 (by omega) hcs (by omega) parent
  simp only [split_pdf_file]
  refine ⟨hne, by simpa using hhead, hlast, hchain, hpair, ?_, by simpa using hsum,
    hfull, htrunc⟩
  intro c hc
  have := hmem c hc
  omega

/-- Witness for C1 at the documented example: `totalPages = 523`,
`chunkSizePages = 50` yields the 11 ranges `[1,50], [51,100], ...,
[501,523]`, and the invariants hold there. -/
theorem split_pdf_file_ranges_witness :
    ((split_pdf_file 523 50 "task1").map (fun c => (c.start_page, c.end_page)) =
      [(1, 50), (51, 100), (101, 150), (151, 200), (201, 250), (251, 300), (301, 350),
        (351, 400), (401, 450), (451, 500), (501, 523)]) ∧
    (split_pdf_file 523 50 "task1" ≠ [] ∧
      (split_pdf_file 523 50 "task1").head?.map (fun c => c.start_page) = some 1 ∧
      (split_pdf_file 523 50 "task1").getLast?.map (fun c => c.end_page) = some 523 ∧
      List.Chain' (fun a b => b.start_page = a.end_page + 1) (split_pdf_file 523 50 "task1") ∧
      List.Pairwise (fun a b => a.end_page < b.start_page) (split_pdf_file 523 50 "task1") ∧
      (∀ c ∈ split_pdf_file 523 50 "task1",
        1 ≤ c.start_page ∧ c.start_page ≤ c.end_page ∧ c.end_page ≤ 523 ∧
          c.page_count = c.end_page - c.start_page + 1) ∧
      ((split_pdf_file 523 50 "task1").map (fun c => c.page_count)).sum = 523 ∧
      (∀ c ∈ (split_pdf_file 523 50 "task1").dropLast, c.page_count = 50) ∧
      (∀ c ∈ (split_pdf_file 523 50 "task1").getLast?, c.page_count ≤ 50)) := by
  constructor
  · simp only [split_pdf_file]
    norm_num [splitGo_of_lt, splitGo_stop]
  · exact split_pdf_file_ranges 523 50 "task1" (by norm_num) (by norm_num)

/-- C2.  The split path is taken iff the caller did not explicitly
disable pagination, the deployment enables it, the document is a
probe-able PDF, and the probed page count strictly exceeds the
threshold; otherwise the document is parsed directly and zero chunk
tasks are dispatched. -/
theorem use_pagination_iff (enable_pagination : Option Bool) (env_pagination_enabled : Bool)
    (pypdfium2_available : Bool) (file_name : String) (probe : Option Nat)
    (threshold chunk_size : Nat) (parent : String) :
    (use_pagination enable_pagination env_pagination_enabled pypdfium2_available
        file_name probe threshold = true ↔
      (enable_pagination ≠ some false ∧ env_pagination_enabled = true ∧
        pypdfium2_available = true ∧ file_name.toLower.endsWith ".pdf" = true ∧
        ∃ n, probe = some n ∧ n > threshold)) ∧
    (use_pagination enable_pagination env_pagination_enabled pypdfium2_available
        file_name probe threshold = false →
      chunk_tasks_dispatched enable_pagination env_pagination_enabled pypdfium2_available
        file_name probe threshold chunk_size parent = 0) := by
  constructor
  · unfold use_pagination user_disable_pagination get_pdf_page_count
    constructor
    · intro h
      have e1 : enable_pagination ≠ some false := by
        intro h1; simp [h1] at h
      have e2 : env_pagination_enabled = true := by
        by_contra h2; simp [h2] at h
      have e3 : pypdfium2_available = true := by
        by_contra h3
        simp only [Bool.not_eq_true] at h3
        simp [h3] at h
      have e4 : file_name.toLower.endsWith ".pdf" = true := by
        by_contra h4
        simp only [Bool.not_eq_true] at h4
        simp [h4] at h
      refine ⟨e1, e2, e3, e4, ?_⟩
      simp [e1, e2, e3, e4] at h
      cases probe with
      | none => simp at h
      | some n => exact ⟨n, rfl, by simpa using h⟩
    · rintro ⟨h1, h2, h3, h4, n, rfl, hn⟩
      simp [h1, h2, h3, h4, hn]
  · intro h
    unfold chunk_tasks_dispatched
    rw [h]
    simp

/-- Witness for C2 at the documented scenario: threshold 100 and a
probed page count of 80 take the direct path with zero chunk tasks
dispatched. -/
theorem use_pagination_iff_witness :
    use_pagination none true true "doc.pdf" (some 80) 100 = false ∧
    chunk_tasks_dispatched none true true "doc.pdf" (some 80) 100 50 "task1" = 0 := by
  have h := use_pagination_iff none true true "doc.pdf" (some 80) 100 50 "task1"
  have hfalse : use_pagination none true true "doc.pdf" (some 80) 100 = false := by
    cases hu : use_pagination none true true "doc.pdf" (some 80) 100 with
    | false => rfl
    | true =>
      obtain ⟨_, _, _, _, n, hn, hgt⟩ := h.1.mp hu
      cases hn
      omega
  exact ⟨hfalse, h.2 hfalse⟩

/-! ### Dictionary lemmas -/

lemma dictFind_nil (k : String) : dictFind [] k = none := rfl

lemma dictFind_cons (k' : String) (v : PyVal) (d : Dict) (k : String) :
    dictFind ((k', v) :: d) k = if k' == k then some v else dictFind d k := by
  simp only [dictFind, List.find?]
  by_cases h : k' == k
  · simp [h]
  · simp only [h]
    simp at h
    simp [h]

lemma dictFind_append (d₁ d₂ : Dict) (k : String) :
    dictFind (d₁ ++ d₂) k = (dictFind d₁ k).or (dictFind d₂ k) := by
  induction d₁ with
  | nil => simp [dictFind_nil, dictFind]
  | cons kv rest ih =>
    obtain ⟨k', v⟩ := kv
    rw [List.cons_append, dictFind_cons, dictFind_cons]
    by_cases h : k' == k
    · simp [h]
    · simp [h, ih]

lemma dictFind_eq_none_of_not_any (k : String) :
    ∀ d : Dict, ¬(d.any (fun kv => kv.1 == k) = true) → dictFind d k = none := by
  intro d
  induction d with
  | nil => intro _; rfl
  | cons kv rest ih =>
    intro h
    obtain ⟨k₀, v₀⟩ := kv
    simp only [List.any_cons, Bool.or_eq_true, not_or] at h
    rw [dictFind_cons, if_neg h.1]
    exact ih (by simpa using h.2)

lemma dictFind_mapSet_of_any (k : String) (v : PyVal) :
    ∀ d : Dict, d.any (fun kv => kv.1 == k) = true →
      dictFind (d.map (fun kv => if kv.1 == k then (kv.1, v) else kv)) k = some v := by
  intro d
  induction d with
  | nil => intro h; simp at h
  | cons kv rest ih =>
    intro h
    obtain ⟨k₀, v₀⟩ := kv
    by_cases hk : k₀ == k
    · have hk' : k₀ = k := by simpa using hk
      subst hk'
      simp [dictFind_cons]
    · simp only [List.any_cons] at h
      simp only [List.map_cons]
      simp only [hk]
      simp only [Bool.false_eq_true, if_false]
      rw [dictFind_cons, if_neg hk]
      apply ih
      simpa [hk] using h

lemma dictFind_mapSet_ne (k k' : String) (v : PyVal) (h : k' ≠ k) :
    ∀ d : Dict, dictFind (d.map (fun kv => if kv.1 == k then (kv.1, v) else kv)) k' =
      dictFind d k' := by
  intro d
  induction d with
  | nil => rfl
  | cons kv rest ih =>
    obtain ⟨k₀, v₀⟩ := kv
    simp only [List.map_cons]
    by_cases hk : k₀ == k
    · have hc : ¬(k₀ == k') = true := by
        simp at hk ⊢
        rw [hk]; exact fun e => h e.symm
      simp only [hk, if_true]
      rw [dictFind_cons, dictFind_cons, if_neg (by simpa using hc), if_neg (by simpa using hc)]
      exact ih
    · simp only [hk, Bool.false_eq_true, if_false]
      rw [dictFind_cons, dictFind_cons]
      by_cases hc : k₀ == k'
      · simp [hc]
      · rw [if_neg hc, if_neg hc]
        exact ih

lemma dictFind_dictSet_self (d : Dict) (k : String) (v : PyVal) :
    dictFind (dictSet d k v) k = some v := by
  unfold dictSet
  by_cases h : d.any (fun kv => kv.1 == k)
  · rw [if_pos h]
    exact dictFind_mapSet_of_any k v d h
  · rw [if_neg h, dictFind_append, dictFind_eq_none_of_not_any k d h]
    simp [dictFind_cons]

lemma dictFind_dictSet_ne (d : Dict) (k k' : String) (v : PyVal) (h : k' ≠ k) :
    dictFind (dictSet d k v) k' = dictFind d k' := by
  unfold dictSet
  by_cases ha : d.any (fun kv => kv.1 == k)
  · rw [if_pos ha]
    exact dictFind_mapSet_ne k k' v h d
  · rw [if_neg ha, dictFind_append, dictFind_cons, if_neg (by simpa using fun e => h e.symm)]
    simp [dictFind_nil]

lemma dictFind_shiftPageField (off : Int) (k : String) (d : Dict) (k' : String) :
    dictFind (shiftPageField off k d) k' =
      if k' = k then (dictFind d k').map (addPageOffset off) else dictFind d k' := by
  induction d with
  | nil =>
    simp only [shiftPageField, List.map_nil, dictFind_nil, Option.map_none']
    rw [ite_self]
  | cons kv rest ih =>
    obtain ⟨k₀, v₀⟩ := kv
    simp only [shiftPageField, List.map_cons] at ih ⊢
    by_cases hk : k₀ == k <;> by_cases hc : k₀ == k'
    · have h1 : k' = k := by
        simp at hk hc; rw [← hc, hk]
      simp only [hk, if_true]
      rw [dictFind_cons, if_pos hc, dictFind_cons, if_pos hc, if_pos h1]
      rfl
    · have h1 : ¬(k' = k) := by
        simp at hk hc ⊢
        intro e; exact hc (by rw [hk, ← e])
      simp only [hk, if_true]
      rw [dictFind_cons, if_neg hc, dictFind_cons, if_neg hc, ih, if_neg h1]
    · have h1 : ¬(k' = k) := by
        simp at hk hc ⊢
        rw [← hc]; exact hk
      simp only [hk, Bool.false_eq_true, if_false]
      rw [dictFind_cons, if_pos hc, dictFind_cons, if_pos hc, if_neg h1]
    · simp only [hk, Bool.false_eq_true, if_false]
      rw [dictFind_cons, if_neg hc, dictFind_cons, if_neg hc, ih]

/-! ### Merge result lemmas -/

lemma merge_find_status (rs : List Dict) (fn be tid ts : String) :
    dictFind (mergeChunkResultsFromResults rs fn be tid ts) "status" =
      some (.vstr "completed") := by
  simp only [mergeChunkResultsFromResults]
  rw [dictFind_append, dictFind_cons]
  simp

lemma merge_resultStatus (rs : List Dict) (fn be tid ts : String) :
    resultStatus (mergeChunkResultsFromResults rs fn be tid ts) = "completed" := by
  unfold resultStatus dGetStr
  rw [merge_find_status]

lemma merge_statusFailed (rs : List Dict) (fn be tid ts : String) :
    statusFailed (mergeChunkResultsFromResults rs fn be tid ts) = false := by
  unfold statusFailed
  rw [merge_find_status]
  rfl

lemma merge_find_data (rs : List Dict) (fn be tid ts : String) :
    dictFind (mergeChunkResultsFromResults rs fn be tid ts) "data" =
      some (.vdict [("content",
          .vstr (String.join ((List.insertionSort chunkLE rs).map chunkMd))),
        ("images_uploaded", match List.insertionSort chunkLE rs with
          | [] => PyVal.vbool false
          | r :: _ => (dictFind (dGetDict r "data") "images_uploaded").getD (.vbool false)),
        ("images_as_base64", .vbool (strContains
          (String.join ((List.insertionSort chunkLE rs).map chunkMd)) "data:image")),
        ("has_images", .vbool (decide
          (((List.insertionSort chunkLE rs).flatMap chunkImages).length > 0))),
        ("images", .vlist
          (if ((List.insertionSort chunkLE rs).flatMap chunkImages).isEmpty then
            (List.insertionSort chunkLE rs).flatMap chunkImages
          else List.insertionSort imageLE
            ((List.insertionSort chunkLE rs).flatMap chunkImages)))]) := by
  simp only [mergeChunkResultsFromResults]
  rw [dictFind_append]
  simp [dictFind_cons]

lemma merge_resultContent (rs : List Dict) (fn be tid ts : String) :
    resultContent (mergeChunkResultsFromResults rs fn be tid ts) =
      String.join ((List.insertionSort chunkLE rs).map chunkMd) := by
  unfold resultContent chunkMd dGetDict
  rw [merge_find_data]
  simp only [dictFind_cons]
  rfl

lemma startPageKey_tagged (c : ChunkInfo) (r : Dict) :
    startPageKey (taggedChunkResult c r) = (c.start_page : Int) := by
  unfold startPageKey dGetInt taggedChunkResult
  rw [dictFind_dictSet_ne _ _ _ _ (by decide), dictFind_dictSet_self]

lemma chunkMd_tagged (c : ChunkInfo) (r : Dict) :
    chunkMd (taggedChunkResult c r) = chunkMd r := by
  unfold chunkMd dGetDict taggedChunkResult
  rw [dictFind_dictSet_ne _ _ _ _ (by decide), dictFind_dictSet_ne _ _ _ _ (by decide)]

lemma insertionSort_tagged (execParse : ChunkInfo → Dict) (l : List ChunkInfo) :
    List.insertionSort chunkLE (l.map (fun c => taggedChunkResult c (execParse c))) =
      (List.insertionSort chunkInfoLE l).map (fun c => taggedChunkResult c (execParse c)) := by
  rw [List.map_insertionSort chunkInfoLE chunkLE
    (fun c => taggedChunkResult c (execParse c)) l]
  intro a _ b _
  unfold chunkInfoLE chunkLE
  rw [startPageKey_tagged, startPageKey_tagged]
  exact (Nat.cast_le).symm

/-! ### Synchronous split-path lemmas -/

lemma syncSplitCollect_fst (execParse : ChunkInfo → Dict) :
    ∀ chunks : List ChunkInfo, (syncSplitCollect execParse chunks).1 =
      (chunks.filter (fun c => !statusFailed (execParse c))).map
        (fun c => taggedChunkResult c (execParse c)) := by
  intro chunks
  induction chunks with
  | nil => rfl
  | cons c rest ih =>
    simp only [syncSplitCollect, List.filter_cons]
    by_cases hf : statusFailed (execParse c)
    · simp [hf, ih]
    · simp only [Bool.not_eq_true] at hf
      simp [hf, ih]

lemma syncSplitCollect_snd (execParse : ChunkInfo → Dict) :
    ∀ chunks : List ChunkInfo, (syncSplitCollect execParse chunks).2 =
      (chunks.filter (fun c => statusFailed (execParse c))).map
        (fun c => syncFailedEntry c (execParse c)) := by
  intro chunks
  induction chunks with
  | nil => rfl
  | cons c rest ih =>
    simp only [syncSplitCollect, List.filter_cons]
    by_cases hf : statusFailed (execParse c)
    · simp [hf, ih]
    · simp only [Bool.not_eq_true] at hf
      simp [hf, ih]

/-- C4.  On the synchronous split path, whenever at least one chunk
parse succeeds, the document-level result is `completed` and its merged
markdown is the separator-free concatenation, in ascending `start_page`
order, of exactly the successful chunks' markdown; failed chunks are
excluded and no placeholder is inserted. -/
theorem sync_partial_failure_merge (chunks : List ChunkInfo) (execParse : ChunkInfo → Dict)
    (fn be tid ts : String) (h : ∃ c ∈ chunks, statusFailed (execParse c) = false) :
    resultStatus (handleSplitAndParseSyncResult chunks execParse fn be tid ts) = "completed" ∧
    resultContent (handleSplitAndParseSyncResult chunks execParse fn be tid ts) =
      String.join ((List.insertionSort chunkInfoLE
        (chunks.filter (fun c => !statusFailed (execParse c)))).map
          (fun c => chunkMd (execParse c))) := by
  obtain ⟨c0, hc0, hfail0⟩ := h
  have hmem : c0 ∈ chunks.filter (fun c => !statusFailed (execParse c)) :=
    List.mem_filter.mpr ⟨hc0, by simp [hfail0]⟩
  have hne : (syncSplitCollect execParse chunks).1.isEmpty = false := by
    rw [syncSplitCollect_fst]
    rcases hf : chunks.filter (fun c => !statusFailed (execParse c)) with _ | ⟨x, xs⟩
    · rw [hf] at hmem; simp at hmem
    · simp
  simp only [handleSplitAndParseSyncResult, hne, Bool.false_eq_true, if_false]
  refine ⟨merge_resultStatus _ _ _ _ _, ?_⟩
  rw [merge_resultContent, syncSplitCollect_fst, insertionSort_tagged]
  rw [List.map_map]
  congr 1
  apply List.map_congr_left
  intro c _
  exact chunkMd_tagged c (execParse c)

/-- Witness for C4: three chunks of which the middle one fails yield a
completed document whose markdown is the concatenation of the first and
third chunks' markdown in page order. -/
theorem sync_partial_failure_merge_witness :
    (∃ c ∈ [ChunkInfo.mk "p1" 1 100 100, ChunkInfo.mk "p2" 101 200 100,
        ChunkInfo.mk "p3" 201 250 50],
      statusFailed (syncWitnessParse c) = false) ∧
    (resultStatus (handleSplitAndParseSyncResult
        [ChunkInfo.mk "p1" 1 100 100, ChunkInfo.mk "p2" 101 200 100,
          ChunkInfo.mk "p3" 201 250 50] syncWitnessParse "d.pdf" "pipeline" "t" "ts")
      = "completed" ∧
    resultContent (handleSplitAndParseSyncResult
        [ChunkInfo.mk "p1" 1 100 100, ChunkInfo.mk "p2" 101 200 100,
          ChunkInfo.mk "p3" 201 250 50] syncWitnessParse "d.pdf" "pipeline" "t" "ts")
      = String.join ((List.insertionSort chunkInfoLE
          ([ChunkInfo.mk "p1" 1 100 100, ChunkInfo.mk "p2" 101 200 100,
            ChunkInfo.mk "p3" 201 250 50].filter
              (fun c => !statusFailed (syncWitnessParse c)))).map
            (fun c => chunkMd (syncWitnessParse c)))) ∧
    resultContent (handleSplitAndParseSyncResult
        [ChunkInfo.mk "p1" 1 100 100, ChunkInfo.mk "p2" 101 200 100,
          ChunkInfo.mk "p3" 201 250 50] syncWitnessParse "d.pdf" "pipeline" "t" "ts") = "AC" :=
  ⟨⟨ChunkInfo.mk "p1" 1 100 100, by simp [syncWitnessParse, statusFailed, dictFind]⟩,
    sync_partial_failure_merge _ syncWitnessParse "d.pdf" "pipeline" "t" "ts"
      ⟨ChunkInfo.mk "p1" 1 100 100, by simp, by simp [syncWitnessParse, statusFailed, dictFind]⟩,
    rfl⟩

lemma fanInCollect_all_failed : ∀ outs : List (String × ChunkTaskOutcome),
    (∀ x ∈ outs, outcomeFails x.2 = true) →
    fanInCollect outs =
      ([], outs.map (fun x => { task_id := x.1, error := outcomeErrorText x.2 })) := by
  intro outs
  induction outs with
  | nil => intro _; rfl
  | cons p rest ih =>
    intro h
    obtain ⟨id0, o0⟩ := p
    have h0 : outcomeFails o0 = true := h (id0, o0) (List.mem_cons_self _ _)
    have hrest := ih (fun x hx => h x (List.mem_cons_of_mem _ hx))
    cases o0 with
    | timedOut => simp [fanInCollect, hrest, outcomeErrorText]
    | completed r =>
      have : statusFailed r = true := by simpa [outcomeFails] using h0
      simp [fanInCollect, hrest, this, outcomeErrorText]
    | errored m => simp [fanInCollect, hrest, outcomeErrorText]
    | otherState s => simp [fanInCollect, hrest, outcomeErrorText]

/-- C5.  When every chunk of a split document fails, the whole document
task fails and the document-level error message is the aggregate text
ending with the first failed chunk's error, in both the synchronous and
the distributed fan-in path. -/
theorem all_chunks_fail_first_error :
    (∀ (c0 : ChunkInfo) (rest : List ChunkInfo) (execParse : ChunkInfo → Dict)
        (fn be tid ts : String),
      (∀ c ∈ c0 :: rest, statusFailed (execParse c) = true) →
      resultStatus (handleSplitAndParseSyncResult (c0 :: rest) execParse fn be tid ts)
          = "failed" ∧
      resultErrorMsg (handleSplitAndParseSyncResult (c0 :: rest) execParse fn be tid ts) =
        allChunksFailedMsg (c0 :: rest).length
          (dGetStr (execParse c0) "error_message" "Unknown error") ∧
      ∃ p, resultErrorMsg (handleSplitAndParseSyncResult (c0 :: rest) execParse fn be tid ts) =
        p ++ dGetStr (execParse c0) "error_message" "Unknown error") ∧
    (∀ (id0 : String) (o0 : ChunkTaskOutcome) (rest : List (String × ChunkTaskOutcome))
        (fn be tid ts : String),
      (∀ x ∈ (id0, o0) :: rest, outcomeFails x.2 = true) →
      resultStatus (mergeChunkResultsTaskRun ((id0, o0) :: rest) fn be tid ts) = "failed" ∧
      resultErrorMsg (mergeChunkResultsTaskRun ((id0, o0) :: rest) fn be tid ts) =
        allChunksFailedMsg ((id0, o0) :: rest).length (outcomeErrorText o0) ∧
      ∃ p, resultErrorMsg (mergeChunkResultsTaskRun ((id0, o0) :: rest) fn be tid ts) =
        p ++ outcomeErrorText o0) := by
  constructor
  · intro c0 rest execParse fn be tid ts h
    have hfst : (syncSplitCollect execParse (c0 :: rest)).1 = [] := by
      rw [syncSplitCollect_fst]
      have : (c0 :: rest).filter (fun c => !statusFailed (execParse c)) = [] := by
        rw [List.filter_eq_nil_iff]
        intro c hc
        simp [h c hc]
      rw [this]; rfl
    have hsnd : (syncSplitCollect execParse (c0 :: rest)).2 =
        (c0 :: rest).map (fun c => syncFailedEntry c (execParse c)) := by
      rw [syncSplitCollect_snd]
      congr 1
      rw [List.filter_eq_self]
      intro c hc
      exact h c hc
    simp only [handleSplitAndParseSyncResult, hfst, List.isEmpty_nil, if_true, hsnd,
      List.map_cons]
    refine ⟨rfl, rfl, ⟨"All " ++ toString (c0 :: rest).length ++
      " chunks failed. First error: ", rfl⟩⟩
  · intro id0 o0 rest fn be tid ts h
    have hcol := fanInCollect_all_failed ((id0, o0) :: rest) h
    simp only [mergeChunkResultsTaskRun, hcol, List.isEmpty_nil, if_true, List.map_cons]
    refine ⟨rfl, rfl, ⟨"All " ++ toString ((id0, o0) :: rest).length ++
      " chunks failed. First error: ", rfl⟩⟩

/-- Witness for C5: two all-failing chunks in the synchronous path and
a timed-out plus an errored chunk task in the distributed path both
yield document-level failure carrying the first chunk's error text. -/
theorem all_chunks_fail_first_error_witness :
    ((∀ c ∈ [ChunkInfo.mk "p1" 1 50 50, ChunkInfo.mk "p2" 51 80 30],
        statusFailed (allFailParse c) = true) ∧
      resultStatus (handleSplitAndParseSyncResult
        [ChunkInfo.mk "p1" 1 50 50, ChunkInfo.mk "p2" 51 80 30]
        allFailParse "d.pdf" "pipeline" "t" "ts") = "failed" ∧
      resultErrorMsg (handleSplitAndParseSyncResult
        [ChunkInfo.mk "p1" 1 50 50, ChunkInfo.mk "p2" 51 80 30]
        allFailParse "d.pdf" "pipeline" "t" "ts") =
        "All 2 chunks failed. First error: ExtractionError: bad range") ∧
    ((∀ x ∈ [("a", ChunkTaskOutcome.timedOut), ("b", ChunkTaskOutcome.errored "boom")],
        outcomeFails x.2 = true) ∧
      resultStatus (mergeChunkResultsTaskRun
        [("a", ChunkTaskOutcome.timedOut), ("b", ChunkTaskOutcome.errored "boom")]
        "d.pdf" "pipeline" "t" "ts") = "failed" ∧
      resultErrorMsg (mergeChunkResultsTaskRun
        [("a", ChunkTaskOutcome.timedOut), ("b", ChunkTaskOutcome.errored "boom")]
        "d.pdf" "pipeline" "t" "ts") =
        "All 2 chunks failed. First error: Task timeout after 3600 seconds") := by
  have h1 := all_chunks_fail_first_error.1 (ChunkInfo.mk "p1" 1 50 50)
    [ChunkInfo.mk "p2" 51 80 30] allFailParse "d.pdf" "pipeline" "t" "ts"
    (by intro c _; rfl)
  have h2 := all_chunks_fail_first_error.2 "a" ChunkTaskOutcome.timedOut
    [("b", ChunkTaskOutcome.errored "boom")] "d.pdf" "pipeline" "t" "ts" (by decide)
  exact ⟨⟨by decide, h1.1, by rw [h1.2.1]; rfl⟩, ⟨by decide, h2.1, by rw [h2.2.1]; rfl⟩⟩

/-! ### Timeout handling in the fan-in (C9) -/

lemma fanInCollect_append (pre post : List (String × ChunkTaskOutcome)) :
    fanInCollect (pre ++ post) =
      ((fanInCollect pre).1 ++ (fanInCollect post).1,
        (fanInCollect pre).2 ++ (fanInCollect post).2) := by
  induction pre with
  | nil => simp [fanInCollect]
  | cons p rest ih =>
    obtain ⟨id0, o0⟩ := p
    cases o0 with
    | timedOut => simp [fanInCollect, ih]
    | completed r =>
      by_cases hf : statusFailed r
      · simp [fanInCollect, ih, hf]
      · simp only [Bool.not_eq_true] at hf
        simp [fanInCollect, ih, hf]
    | errored m => simp [fanInCollect, ih]
    | otherState s => simp [fanInCollect, ih]

/-- C9.  A chunk task that does not reach a terminal state within the
fixed per-chunk budget is recorded in the failed-chunks accumulator
with the timeout error message, contributes nothing to the collected
successes (exactly like a parse failure), and escalates to a
document-level failure only when no chunk succeeded. -/
theorem chunk_timeout_recorded (pre post : List (String × ChunkTaskOutcome))
    (id fn be tid ts : String) :
    (fanInCollect (pre ++ (id, ChunkTaskOutcome.timedOut) :: post)).2 =
      (fanInCollect pre).2 ++
        { task_id := id, error := chunkTimeoutMsg } :: (fanInCollect post).2 ∧
    (fanInCollect (pre ++ (id, ChunkTaskOutcome.timedOut) :: post)).1 =
      (fanInCollect (pre ++ post)).1 ∧
    (fanInCollect (pre ++ (id, ChunkTaskOutcome.timedOut) :: post)).1 =
      (fanInCollect (pre ++ (id, ChunkTaskOutcome.errored "ParseError") :: post)).1 ∧
    (resultStatus (mergeChunkResultsTaskRun (pre ++ (id, ChunkTaskOutcome.timedOut) :: post)
        fn be tid ts) = "failed" ↔
      (fanInCollect (pre ++ (id, ChunkTaskOutcome.timedOut) :: post)).1.isEmpty = true) ∧
    ((fanInCollect (pre ++ (id, ChunkTaskOutcome.timedOut) :: post)).1.isEmpty = false →
      mergeChunkResultsTaskRun (pre ++ (id, ChunkTaskOutcome.timedOut) :: post) fn be tid ts =
        mergeChunkResultsTaskRun (pre ++ (id, ChunkTaskOutcome.errored "ParseError") :: post)
          fn be tid ts) := by
  have htime : fanInCollect ((id, ChunkTaskOutcome.timedOut) :: post) =
      ((fanInCollect post).1,
        { task_id := id, error := chunkTimeoutMsg } :: (fanInCollect post).2) := by
    simp [fanInCollect]
  have herr : fanInCollect ((id, ChunkTaskOutcome.errored "ParseError") :: post) =
      ((fanInCollect post).1,
        { task_id := id, error := "ParseError" } :: (fanInCollect post).2) := by
    have hpe : "ParseError".isEmpty = false := rfl
    simp [fanInCollect, hpe]
  have h1 : (fanInCollect (pre ++ (id, ChunkTaskOutcome.timedOut) :: post)).1 =
      (fanInCollect pre).1 ++ (fanInCollect post).1 := by
    rw [fanInCollect_append, htime]
  have h2 : (fanInCollect (pre ++ (id, ChunkTaskOutcome.timedOut) :: post)).2 =
      (fanInCollect pre).2 ++
        { task_id := id, error := chunkTimeoutMsg } :: (fanInCollect post).2 := by
    rw [fanInCollect_append, htime]
  have h3 : (fanInCollect (pre ++ (id, ChunkTaskOutcome.errored "ParseError") :: post)).1 =
      (fanInCollect pre).1 ++ (fanInCollect post).1 := by
    rw [fanInCollect_append, herr]
  have h4 : (fanInCollect (pre ++ post)).1 =
      (fanInCollect pre).1 ++ (fanInCollect post).1 := by
    rw [fanInCollect_append]
  refine ⟨h2, by rw [h1, h4], by rw [h1, h3], ?_, ?_⟩
  · constructor
    · intro hs
      by_contra hbe
      simp only [Bool.not_eq_true] at hbe
      rw [mergeChunkResultsTaskRun] at hs
      simp only [hbe, Bool.false_eq_true, if_false] at hs
      rw [merge_resultStatus] at hs
      exact absurd hs (by decide)
    · intro he
      rw [mergeChunkResultsTaskRun]
      simp only [he, if_true]
      rfl
  · intro hne
    have hne2 : (fanInCollect (pre ++ (id, ChunkTaskOutcome.errored "ParseError") :: post)).1.isEmpty
        = false := by rw [h3, ← h1]; exact hne
    rw [mergeChunkResultsTaskRun, mergeChunkResultsTaskRun]
    simp only [hne, hne2, Bool.false_eq_true, if_false]
    rw [h1, h3]

/-- Witness for C9: one successful chunk task plus one timed-out chunk
task; the timeout is recorded, excluded from the successes, and the
merged document result equals the one obtained had the chunk failed in
parsing. -/
theorem chunk_timeout_recorded_witness :
    ((fanInCollect ([("a", ChunkTaskOutcome.completed okChunkResult)] ++
        ("b", ChunkTaskOutcome.timedOut) :: [])).2 =
      (fanInCollect [("a", ChunkTaskOutcome.completed okChunkResult)]).2 ++
        { task_id := "b", error := chunkTimeoutMsg } :: (fanInCollect []).2 ∧
      (fanInCollect ([("a", ChunkTaskOutcome.completed okChunkResult)] ++
        ("b", ChunkTaskOutcome.timedOut) :: [])).1 =
        (fanInCollect ([("a", ChunkTaskOutcome.completed okChunkResult)] ++ [])).1 ∧
      mergeChunkResultsTaskRun ([("a", ChunkTaskOutcome.completed okChunkResult)] ++
          ("b", ChunkTaskOutcome.timedOut) :: []) "d.pdf" "pipeline" "t" "ts" =
        mergeChunkResultsTaskRun ([("a", ChunkTaskOutcome.completed okChunkResult)] ++
          ("b", ChunkTaskOutcome.errored "ParseError") :: []) "d.pdf" "pipeline" "t" "ts") ∧
    (fanInCollect ([("a", ChunkTaskOutcome.completed okChunkResult)] ++
      ("b", ChunkTaskOutcome.timedOut) :: [])).1.isEmpty = false := by
  have h := chunk_timeout_recorded [("a", ChunkTaskOutcome.completed okChunkResult)] []
    "b" "d.pdf" "pipeline" "t" "ts"
  exact ⟨⟨h.1, h.2.1, h.2.2.2.2 (by rfl)⟩, by rfl⟩

/-! ### Order independence of the merge (C7) -/

lemma insertionSort_eq_of_perm (l₁ l₂ : List Dict) (hperm : l₁.Perm l₂)
    (hnodup : (l₁.map startPageKey).Nodup) :
    List.insertionSort chunkLE l₁ = List.insertionSort chunkLE l₂ := by
  have hp : (List.insertionSort chunkLE l₁).Perm (List.insertionSort chunkLE l₂) :=
    (List.perm_insertionSort chunkLE l₁).trans
      (hperm.trans (List.perm_insertionSort chunkLE l₂).symm)
  have hs₁ : List.Sorted chunkLE (List.insertionSort chunkLE l₁) :=
    List.sorted_insertionSort chunkLE l₁
  have hs₂ : List.Sorted chunkLE (List.insertionSort chunkLE l₂) :=
    List.sorted_insertionSort chunkLE l₂
  have hn₁ : ((List.insertionSort chunkLE l₁).map startPageKey).Nodup :=
    (((List.perm_insertionSort chunkLE l₁).map startPageKey).nodup_iff).mpr hnodup
  have hn₂ : ((List.insertionSort chunkLE l₂).map startPageKey).Nodup := by
    refine (((List.perm_insertionSort chunkLE l₂).map startPageKey).nodup_iff).mpr ?_
    exact ((hperm.map startPageKey).nodup_iff).mp hnodup
  have hpw₁ : List.Pairwise (fun a b => startPageKey a ≠ startPageKey b)
      (List.insertionSort chunkLE l₁) := (List.pairwise_map).mp hn₁
  have hpw₂ : List.Pairwise (fun a b => startPageKey a ≠ startPageKey b)
      (List.insertionSort chunkLE l₂) := (List.pairwise_map).mp hn₂
  have hstrict₁ : List.Pairwise (fun a b => startPageKey a < startPageKey b)
      (List.insertionSort chunkLE l₁) :=
    (hs₁.and hpw₁).imp (fun h => lt_of_le_of_ne h.1 h.2)
  have hstrict₂ : List.Pairwise (fun a b => startPageKey a < startPageKey b)
      (List.insertionSort chunkLE l₂) :=
    (hs₂.and hpw₂).imp (fun h => lt_of_le_of_ne h.1 h.2)
  haveI : IsAntisymm Dict (fun a b => startPageKey a < startPageKey b) :=
    ⟨fun a b h1 h2 => absurd (lt_trans h1 h2) (lt_irrefl _)⟩
  exact List.eq_of_perm_of_sorted hp hstrict₁ hstrict₂

/-- C7.  The merge is order-independent with respect to chunk
completion order: for chunk-result sets with pairwise-distinct
`start_page` keys, any permutation of the input yields identical merged
markdown, images, structured content and parse method. -/
theorem merge_order_independent (l₁ l₂ : List Dict) (fn be tid ts : String)
    (hperm : l₁.Perm l₂) (hnodup : (l₁.map startPageKey).Nodup) :
    resultContent (mergeChunkResultsFromResults l₁ fn be tid ts) =
      resultContent (mergeChunkResultsFromResults l₂ fn be tid ts) ∧
    resultImages (mergeChunkResultsFromResults l₁ fn be tid ts) =
      resultImages (mergeChunkResultsFromResults l₂ fn be tid ts) ∧
    resultContentList (mergeChunkResultsFromResults l₁ fn be tid ts) =
      resultContentList (mergeChunkResultsFromResults l₂ fn be tid ts) ∧
    resultParseMethod (mergeChunkResultsFromResults l₁ fn be tid ts) =
      resultParseMethod (mergeChunkResultsFromResults l₂ fn be tid ts) := by
  have hm : mergeChunkResultsFromResults l₁ fn be tid ts =
      mergeChunkResultsFromResults l₂ fn be tid ts := by
    simp only [mergeChunkResultsFromResults,
      insertionSort_eq_of_perm l₁ l₂ hperm hnodup]
  rw [hm]
  exact ⟨rfl, rfl, rfl, rfl⟩

/-- Witness for C7: the two completion orders of two chunks with
distinct start pages merge identically, and the merged markdown is the
page-ordered concatenation. -/
theorem merge_order_independent_witness :
    ([c7ChunkHigh, c7ChunkLow].map startPageKey).Nodup ∧
    (resultContent (mergeChunkResultsFromResults [c7ChunkHigh, c7ChunkLow]
        "d.pdf" "pipeline" "t" "ts") =
      resultContent (mergeChunkResultsFromResults [c7ChunkLow, c7ChunkHigh]
        "d.pdf" "pipeline" "t" "ts") ∧
    resultImages (mergeChunkResultsFromResults [c7ChunkHigh, c7ChunkLow]
        "d.pdf" "pipeline" "t" "ts") =
      resultImages (mergeChunkResultsFromResults [c7ChunkLow, c7ChunkHigh]
        "d.pdf" "pipeline" "t" "ts") ∧
    resultContentList (mergeChunkResultsFromResults [c7ChunkHigh, c7ChunkLow]
        "d.pdf" "pipeline" "t" "ts") =
      resultContentList (mergeChunkResultsFromResults [c7ChunkLow, c7ChunkHigh]
        "d.pdf" "pipeline" "t" "ts") ∧
    resultParseMethod (mergeChunkResultsFromResults [c7ChunkHigh, c7ChunkLow]
        "d.pdf" "pipeline" "t" "ts") =
      resultParseMethod (mergeChunkResultsFromResults [c7ChunkLow, c7ChunkHigh]
        "d.pdf" "pipeline" "t" "ts")) ∧
    resultContent (mergeChunkResultsFromResults [c7ChunkHigh, c7ChunkLow]
      "d.pdf" "pipeline" "t" "ts") = "AB" :=
  ⟨by decide,
   merge_order_independent [c7ChunkHigh, c7ChunkLow] [c7ChunkLow, c7ChunkHigh]
     "d.pdf" "pipeline" "t" "ts" (List.Perm.swap c7ChunkLow c7ChunkHigh [])
     (by decide),
   rfl⟩

lemma dictFind_shiftFlatFields (off : Int) (f : Dict) (k : String) :
    dictFind (shiftFlatFields off f) k =
      if k ∈ pageFieldsFlat then (dictFind f k).map (addPageOffset off)
      else dictFind f k := by
  unfold shiftFlatFields
  rw [dictFind_shiftPageField, dictFind_shiftPageField, dictFind_shiftPageField,
    dictFind_shiftPageField, dictFind_shiftPageField]
  by_cases h1 : k = "page_num" <;> by_cases h2 : k = "page_index" <;>
    by_cases h3 : k = "page" <;> by_cases h4 : k = "page_number" <;>
      by_cases h5 : k = "page_idx" <;>
        simp_all [pageFieldsFlat]

lemma dictFind_shiftWrappedFields (off : Int) (f : Dict) (k : String) :
    dictFind (shiftWrappedFields off f) k =
      if k ∈ pageFieldsWrapped then (dictFind f k).map (addPageOffset off)
      else dictFind f k := by
  unfold shiftWrappedFields
  rw [dictFind_shiftPageField, dictFind_shiftPageField, dictFind_shiftPageField]
  by_cases h3 : k = "page" <;> by_cases h4 : k = "page_number" <;>
    by_cases h5 : k = "page_idx" <;>
      simp_all [pageFieldsWrapped]

/-- C3 (amended).  Every record of a merged chunk's structured content
has its page-referencing fields incremented by `start_page - 1`, but
the field set differs by shape: the flat list shape shifts the five
fields of `pageFieldsFlat`, while the `pages` and `items` wrapper
shapes shift only the three fields of `pageFieldsWrapped`; all other
fields are copied unchanged. -/
theorem merge_page_offset_fields (s : Int) (f : Dict) (fn be tid ts : String) :
    resultContentList (mergeChunkResultsFromResults [flatChunk s f] fn be tid ts) =
      some (.vlist [.vdict (shiftFlatFields (s - 1) f)]) ∧
    resultContentList (mergeChunkResultsFromResults [pagesChunk s f] fn be tid ts) =
      some (.vdict [("pages", .vlist [.vdict (shiftWrappedFields (s - 1) f)])]) ∧
    resultContentList (mergeChunkResultsFromResults [itemsChunk s f] fn be tid ts) =
      some (.vdict [("items", .vlist [.vdict (shiftWrappedFields (s - 1) f)])]) ∧
    (∀ k ∈ pageFieldsFlat, dictFind (shiftFlatFields (s - 1) f) k =
      (dictFind f k).map (addPageOffset (s - 1))) ∧
    (∀ k, k ∉ pageFieldsFlat → dictFind (shiftFlatFields (s - 1) f) k = dictFind f k) ∧
    (∀ k ∈ pageFieldsWrapped, dictFind (shiftWrappedFields (s - 1) f) k =
      (dictFind f k).map (addPageOffset (s - 1))) ∧
    (∀ k, k ∉ pageFieldsWrapped → dictFind (shiftWrappedFields (s - 1) f) k = dictFind f k) := by
  refine ⟨rfl, rfl, rfl, ?_, ?_, ?_, ?_⟩
  · intro k hk
    rw [dictFind_shiftFlatFields, if_pos hk]
  · intro k hk
    rw [dictFind_shiftFlatFields, if_neg hk]
  · intro k hk
    rw [dictFind_shiftWrappedFields, if_pos hk]
  · intro k hk
    rw [dictFind_shiftWrappedFields, if_neg hk]

/-- Counterexample for C3 as stated: `page_num` belongs to the fixed
field set used for flat lists, yet a record carrying it inside a
`pages` wrapper from a chunk with `start_page = 51` is NOT shifted: the
merged record still has `page_num = 3`, not `3 + (51 - 1) = 53`, while
`page_idx` in the same record is shifted to 53. -/
theorem merge_page_offset_fields_counterexample :
    "page_num" ∈ pageFieldsFlat ∧
    mergedPagesRecordField (mergeChunkResultsFromResults
      [pagesChunk 51 [("page_num", PyVal.vint 3), ("page_idx", PyVal.vint 3)]]
      "d.pdf" "pipeline" "t" "ts") "page_num" = some 3 ∧
    mergedPagesRecordField (mergeChunkResultsFromResults
      [pagesChunk 51 [("page_num", PyVal.vint 3), ("page_idx", PyVal.vint 3)]]
      "d.pdf" "pipeline" "t" "ts") "page_num" ≠ some (3 + (51 - 1)) ∧
    mergedPagesRecordField (mergeChunkResultsFromResults
      [pagesChunk 51 [("page_num", PyVal.vint 3), ("page_idx", PyVal.vint 3)]]
      "d.pdf" "pipeline" "t" "ts") "page_idx" = some 53 := by
  refine ⟨by decide, rfl, by decide, rfl⟩

/-- Witness for C3 (amended) at the documented instance: a record with
`page_idx = 3` from a chunk with `startPage = 51` merges to
`page_idx = 53` in the flat shape, the flat shift moves `page_idx`, and
the wrapper shift leaves `page_num` untouched. -/
theorem merge_page_offset_fields_witness :
    resultContentList (mergeChunkResultsFromResults
        [flatChunk 51 [("page_idx", PyVal.vint 3)]] "d.pdf" "pipeline" "t" "ts") =
      some (.vlist [.vdict [("page_idx", PyVal.vint 53)]]) ∧
    dictFind (shiftFlatFields (51 - 1) [("page_idx", PyVal.vint 3)]) "page_idx" =
      (dictFind [("page_idx", PyVal.vint 3)] "page_idx").map (addPageOffset (51 - 1)) ∧
    dictFind (shiftWrappedFields (51 - 1) [("page_num", PyVal.vint 3)]) "page_num" =
      dictFind [("page_num", PyVal.vint 3)] "page_num" := by
  have h1 := merge_page_offset_fields 51 [("page_idx", PyVal.vint 3)]
    "d.pdf" "pipeline" "t" "ts"
  have h2 := merge_page_offset_fields 51 [("page_num", PyVal.vint 3)]
    "d.pdf" "pipeline" "t" "ts"
  refine ⟨?_, h1.2.2.2.1 "page_idx" (by decide), h2.2.2.2.2.2.2 "page_num" (by decide)⟩
  rw [h1.1]
  rfl

/-! ### Page-range self-reporting of chunk results (C6)

The distributed dispatch puts `chunk_info` into the chunk task payload
(tasks.py lines 631-636), but the success dict built by
`_execute_parse_document` (lines 1048-1069) never copies it into the
result.  In the fan-in, `result.info` of a successful Celery task is
the returned dict itself, which has no `kwargs` entry, so the metadata
lookup of lines 1560-1571 always comes up empty and the loop falls back
to `chunk_result.get("start_page", 1)`, which is also absent — the
recovered page range is always the default `(1, 1)`. -/

/-- C6 (code behaviour).  The dispatched payload carries the chunk page
range, the parse success dict carries no `start_page`, `end_page` or
`kwargs` key, and consequently the fan-in page-range recovery always
returns the default `(1, 1)` and leaves the result unchanged. -/
theorem chunk_result_page_range_defaults (options : Dict) (c : ChunkInfo)
    (fn be pm ts content : String) (iu ib : Bool) (images : List PyVal)
    (jf : Option Dict) (cl : Option PyVal) :
    dictFind (chunkOptionsWithInfo options c) "chunk_info" =
      some (.vdict [("start_page", .vint c.start_page), ("end_page", .vint c.end_page),
        ("page_count", .vint c.page_count)]) ∧
    dictFind (executeParseSuccessResult fn be pm ts content iu ib images jf cl)
      "start_page" = none ∧
    dictFind (executeParseSuccessResult fn be pm ts content iu ib images jf cl)
      "end_page" = none ∧
    dictFind (executeParseSuccessResult fn be pm ts content iu ib images jf cl)
      "kwargs" = none ∧
    recoverPageRange (executeParseSuccessResult fn be pm ts content iu ib images jf cl)
        (executeParseSuccessResult fn be pm ts content iu ib images jf cl) =
      (1, 1, executeParseSuccessResult fn be pm ts content iu ib images jf cl) := by
  refine ⟨dictFind_dictSet_self _ _ _, ?_⟩
  cases jf <;> cases cl <;> exact ⟨rfl, rfl, rfl, rfl⟩

/-! ### Observed state chain of the synchronous split path (C8) -/

/-- Counterexample for C8 as stated: a concrete synchronous split run
passes through `queued, started, splitting_and_parsing, succeeded` and
the state `merging` is never reported (the only `update_state` of the
local branch sets `splitting_and_parsing`; `merging` is set only by the
distributed `merge_chunk_results_task`). -/
theorem sync_states_no_merging_counterexample :
    syncSplitObservedStates [ChunkInfo.mk "p1" 1 50 50, ChunkInfo.mk "p2" 51 80 30]
        (fun _ => okChunkResult) "d.pdf" "pipeline" "t" "ts" =
      [ObservedStatus.queued, ObservedStatus.started,
        ObservedStatus.splitting_and_parsing, ObservedStatus.succeeded] ∧
    ObservedStatus.merging ∉
      syncSplitObservedStates [ChunkInfo.mk "p1" 1 50 50, ChunkInfo.mk "p2" 51 80 30]
        (fun _ => okChunkResult) "d.pdf" "pipeline" "t" "ts" := by
  exact ⟨rfl, by decide⟩

/-- C8 (amended).  On the synchronous split path the observed chain is
`queued, started, splitting_and_parsing, succeeded or failed`; the
state `merging` is never reported, and the terminal state is `failed`
exactly when every chunk parse failed. -/
theorem sync_states_no_merging (chunks : List ChunkInfo) (execParse : ChunkInfo → Dict)
    (fn be tid ts : String) :
    (syncSplitObservedStates chunks execParse fn be tid ts =
      [ObservedStatus.queued, ObservedStatus.started,
        ObservedStatus.splitting_and_parsing, ObservedStatus.failed] ∨
     syncSplitObservedStates chunks execParse fn be tid ts =
      [ObservedStatus.queued, ObservedStatus.started,
        ObservedStatus.splitting_and_parsing, ObservedStatus.succeeded]) ∧
    ObservedStatus.merging ∉ syncSplitObservedStates chunks execParse fn be tid ts ∧
    (syncSplitObservedStates chunks execParse fn be tid ts =
      [ObservedStatus.queued, ObservedStatus.started,
        ObservedStatus.splitting_and_parsing, ObservedStatus.failed] ↔
      (syncSplitCollect execParse chunks).1.isEmpty = true) := by
  cases hb : (syncSplitCollect execParse chunks).1.isEmpty with
  | true =>
    have hres : statusFailed (handleSplitAndParseSyncResult chunks execParse fn be tid ts)
        = true := by
      simp only [handleSplitAndParseSyncResult, hb, if_true]
      rfl
    have htr : syncSplitObservedStates chunks execParse fn be tid ts =
        [ObservedStatus.queued, ObservedStatus.started,
          ObservedStatus.splitting_and_parsing, ObservedStatus.failed] := by
      simp [syncSplitObservedStates, hres]
    rw [htr]
    exact ⟨Or.inl rfl, by decide, by simp⟩
  | false =>
    have hres : statusFailed (handleSplitAndParseSyncResult chunks execParse fn be tid ts)
        = false := by
      simp only [handleSplitAndParseSyncResult, hb, Bool.false_eq_true, if_false]
      exact merge_statusFailed _ _ _ _ _
    have htr : syncSplitObservedStates chunks execParse fn be tid ts =
        [ObservedStatus.queued, ObservedStatus.started,
          ObservedStatus.splitting_and_parsing, ObservedStatus.succeeded] := by
      simp [syncSplitObservedStates, hres]
    rw [htr]
    exact ⟨Or.inr rfl, by decide, by simp⟩

/-- Witness for C8 (amended) at a concrete run: `merging` is absent
from the observed chain and the terminal state tracks the
empty-successes condition. -/
theorem sync_states_no_merging_witness :
    ObservedStatus.merging ∉ syncSplitObservedStates [ChunkInfo.mk "p1" 1 50 50]
      (fun _ => okChunkResult) "d.pdf" "pipeline" "t" "ts" ∧
    (syncSplitObservedStates [ChunkInfo.mk "p1" 1 50 50] (fun _ => okChunkResult)
        "d.pdf" "pipeline" "t" "ts" =
      [ObservedStatus.queued, ObservedStatus.started,
        ObservedStatus.splitting_and_parsing, ObservedStatus.failed] ↔
      (syncSplitCollect (fun _ => okChunkResult) [ChunkInfo.mk "p1" 1 50 50]).1.isEmpty
        = true) :=
  ⟨(sync_states_no_merging [ChunkInfo.mk "p1" 1 50 50] (fun _ => okChunkResult)
      "d.pdf" "pipeline" "t" "ts").2.1,
   (sync_states_no_merging [ChunkInfo.mk "p1" 1 50 50] (fun _ => okChunkResult)
      "d.pdf" "pipeline" "t" "ts").2.2⟩

/-! ### Storage frame effect of a completed parse (C10) -/

/-- C10.  Whenever `_execute_parse_document` returns a completed
result, the temp input named by `file_path` has been deleted from
storage before the result is returned, no worker-local copy remains,
and re-running the parse on the same `file_path` fails and leaves the
storage unchanged. -/
theorem parse_deletes_input (sl : Bool) (st : StorageState) (fp : String) (ok : Bool)
    (outs : List String) (h : (executeParseDocumentStorage sl st fp ok outs).2 = true) :
    fp ∉ (executeParseDocumentStorage sl st fp ok outs).1.tempFiles ∧
    (executeParseDocumentStorage sl st fp ok outs).1.localFiles = st.localFiles ∧
    ∀ (ok2 : Bool) (outs2 : List String),
      (executeParseDocumentStorage sl
        ((executeParseDocumentStorage sl st fp ok outs).1) fp ok2 outs2).2 = false ∧
      (executeParseDocumentStorage sl
        ((executeParseDocumentStorage sl st fp ok outs).1) fp ok2 outs2).1 =
        (executeParseDocumentStorage sl st fp ok outs).1 := by
  have hmem : ∀ l : List String, fp ∉ l.filter (fun p => p != fp) := by
    intro l hin
    have := (List.mem_filter.mp hin).2
    simp at this
  cases sl with
  | true =>
    by_cases hf : fp ∈ st.tempFiles
    · cases ok with
      | true =>
        simp only [executeParseDocumentStorage, hf, if_true] at h ⊢
        refine ⟨hmem _, ?_, ?_⟩
        · trivial
        · intro ok2 outs2
          have hnot : fp ∉ st.tempFiles.filter (fun p => p != fp) := hmem _
          simp [executeParseDocumentStorage, hnot]
      | false => simp [executeParseDocumentStorage, hf] at h
    · simp [executeParseDocumentStorage, hf] at h
  | false =>
    by_cases hf : fp ∈ st.tempFiles
    · cases ok with
      | true =>
        simp only [executeParseDocumentStorage, hf, if_true] at h ⊢
        refine ⟨hmem _, ?_, ?_⟩
        · trivial
        · intro ok2 outs2
          have hnot : fp ∉ st.tempFiles.filter (fun p => p != fp) := hmem _
          simp [executeParseDocumentStorage, hnot]
      | false => simp [executeParseDocumentStorage, hf] at h
    · simp [executeParseDocumentStorage, hf] at h

/-- Witness for C10: parsing the sole temp file succeeds, deletes it,
and a second parse of the same path fails without changing storage. -/
theorem parse_deletes_input_witness :
    (executeParseDocumentStorage true (StorageState.mk ["doc.pdf"] [] [])
      "doc.pdf" true ["t1/result.md"]).2 = true ∧
    ("doc.pdf" ∉ (executeParseDocumentStorage true (StorageState.mk ["doc.pdf"] [] [])
        "doc.pdf" true ["t1/result.md"]).1.tempFiles ∧
      (executeParseDocumentStorage true (StorageState.mk ["doc.pdf"] [] [])
        "doc.pdf" true ["t1/result.md"]).1.localFiles = [] ∧
      (executeParseDocumentStorage true
        ((executeParseDocumentStorage true (StorageState.mk ["doc.pdf"] [] [])
          "doc.pdf" true ["t1/result.md"]).1) "doc.pdf" true []).2 = false) := by
  have h := parse_deletes_input true (StorageState.mk ["doc.pdf"] [] [])
    "doc.pdf" true ["t1/result.md"] (by decide)
  exact ⟨by decide, h.1, h.2.1, (h.2.2 true []).1⟩

end Mineru
